import Mathlib

set_option autoImplicit false

namespace SlackMachine

/-!
Shallow embedding of the handler registry and dispatch engine of the slack-machine
repository: `machine/handlers.py`, the handler data model of `machine/models/core.py`,
the context builders of `machine/plugins/interactive.py` and `machine/plugins/view.py`,
and the key/value backend of `machine/storage/backends/sqlite.py`.
-/

/-! ### Mention matcher (`generate_message_matcher`, handlers.py lines 178-187)

The compiled pattern is
`^(?:<@(?P<atuser>\w+)>:?|(?P<username>\w+):{alias}) ?(?P<text>.*)$` with `re.DOTALL`,
where `{alias}` is `|(?P<alias>a1|a2|...)` when the `ALIASES` setting is present
(the comma-separated alternatives, each `re.escape`d, hence literals).
Python `re` alternation is leftmost-first with backtracking; since the tail
`' ?(?P<text>.*)$'` matches any remainder in DOTALL mode, the first alternative whose
own parse succeeds is the one that captures. -/

/-- Python `\w`, restricted to ASCII: letters, digits and the underscore.
(All identifiers, names and aliases exercised by the claims are ASCII.) -/
def isWordChar (c : Char) : Bool := c.isAlphanum || c = '_'

/-- Greedy `\w+` against the start of the input: the maximal leading run of word
characters and the remaining input. A shorter run can never satisfy a following
non-word literal, so the maximal run is the only parse a backtracking engine tries
that can continue into `>` or `:`. -/
def takeWordRun : List Char → List Char × List Char
  | [] => ([], [])
  | c :: cs =>
    if isWordChar c then
      let p := takeWordRun cs
      (c :: p.1, p.2)
    else
      ([], c :: cs)

/-- Match one literal alternative against the start of the input, returning the
remaining input. -/
def stripLit : List Char → List Char → Option (List Char)
  | [], cs => some cs
  | _ :: _, [] => none
  | p :: ps, c :: cs => if p = c then stripLit ps cs else none

/-- First alternative `<@(?P<atuser>\w+)>:?` : the captured `atuser` and the input
remaining after the optional (greedily consumed) colon. -/
def matchAtUser (cs : List Char) : Option (String × List Char) :=
  match stripLit ['<', '@'] cs with
  | none => none
  | some cs' =>
    let p := takeWordRun cs'
    if p.1.isEmpty then none
    else
      match stripLit ['>'] p.2 with
      | none => none
      | some rest =>
        match stripLit [':'] rest with
        | some r => some (String.mk p.1, r)
        | none => some (String.mk p.1, rest)

/-- Second alternative `(?P<username>\w+):` : the captured `username` and the input
remaining after the colon. -/
def matchUsername (cs : List Char) : Option (String × List Char) :=
  let p := takeWordRun cs
  if p.1.isEmpty then none
  else
    match stripLit [':'] p.2 with
    | some rest => some (String.mk p.1, rest)
    | none => none

/-- Third alternative `(?P<alias>a1|a2|...)` : literal alternatives tried in order,
the first one matching a prefix of the input captures. -/
def matchAlias : List String → List Char → Option (String × List Char)
  | [], _ => none
  | a :: as, cs =>
    match stripLit a.data cs with
    | some rest => some (a, rest)
    | none => matchAlias as cs

/-- The tail `' ?(?P<text>.*)$'` of the pattern: optionally (greedily) consume one
space, then the `text` group takes the whole remainder (`.` matches newlines under
`re.DOTALL`, and the greedy `.*` reaches the end of the input where `$` holds). -/
def matchTail (cs : List Char) : String :=
  match stripLit [' '] cs with
  | some rest => String.mk rest
  | none => String.mk cs

/-- The group dictionary of a successful match of the mention pattern. A group that
did not participate is `none`, mirroring `re.Match.groupdict`. -/
structure MentionGroups where
  atuser : Option String
  username : Option String
  aliasGroup : Option String
  text : String
  deriving Repr, DecidableEq

/-- `re.match` of the pattern built by `generate_message_matcher` (anchored at the
start of the input). `aliases` is the alias alternation, absent when the `ALIASES`
setting is absent. Alternatives are tried leftmost-first as in Python `re`. -/
def matchMention (aliases : Option (List String)) (s : String) : Option MentionGroups :=
  let cs := s.data
  match matchAtUser cs with
  | some (u, rest) => some ⟨some u, none, none, matchTail rest⟩
  | none =>
    match matchUsername cs with
    | some (u, rest) => some ⟨none, some u, none, matchTail rest⟩
    | none =>
      match aliases with
      | none => none
      | some al =>
        match matchAlias al cs with
        | some (a, rest) => some ⟨none, none, some a, matchTail rest⟩
        | none => none

/-- Python `str.split(",")`: split into the comma-separated pieces; the empty string
yields one empty piece. -/
def splitCommas : List Char → List (List Char)
  | [] => [[]]
  | ',' :: cs => [] :: splitCommas cs
  | c :: cs =>
    match splitCommas cs with
    | [] => [[c]]
    | r :: rs => (c :: r) :: rs

/-- `generate_message_matcher` (handlers.py lines 178-187): the input-dependent part
of the compiled pattern is the alias alternation, built by splitting the `ALIASES`
setting on commas; each alternative is `re.escape`d, i.e. a literal. -/
def generate_message_matcher (aliasesSetting : Option String) : Option (List String) :=
  aliasesSetting.map (fun s => (splitCommas s.data).map String.mk)

/-! ### Message events and dispatch (`handle_message`, `_check_bot_mention`,
`dispatch_listeners`, handlers.py lines 190-298) -/

/-- The fields of the nested `event["message"]` dict that `handle_message` reads after
promoting an edited message; absent dict keys are `none`. -/
structure InnerMessage where
  user : Option String
  text : Option String
  deriving Repr, DecidableEq

/-- The fields of a Slack message event dict read by `handle_message`,
`_check_bot_mention` and `dispatch_listeners`; absent dict keys are `none`. -/
structure MsgEvent where
  user : Option String
  text : Option String
  channel : String
  channel_type : String
  subtype : Option String
  message : Option InnerMessage
  deriving Repr, DecidableEq

/-- `_check_bot_mention` (handlers.py lines 223-252). Returns the event with its text
replaced by the captured `text` group when the message addresses the bot, `none`
otherwise. In a channel or group a match is required and either the (alias-promoted)
`atuser` must be the bot id or the `username` must be the bot name; in any other
channel type the event is always returned, mention-stripped only on a match.
Python truthiness: `if alias:` holds for a captured, non-empty alias. -/
def check_bot_mention (event : MsgEvent) (bot_name bot_id : String)
    (message_matcher : Option (List String)) : Option MsgEvent :=
  let full_text := event.text.getD ""
  let m := matchMention message_matcher full_text
  if event.channel_type = "channel" ∨ event.channel_type = "group" then
    match m with
    | none => none
    | some g =>
      let atuser := if g.aliasGroup.getD "" ≠ "" then some bot_id else g.atuser
      if atuser ≠ some bot_id ∧ g.username ≠ some bot_name then none
      else some { event with text := some g.text }
  else
    match m with
    | some g => some { event with text := some g.text }
    | none => some event

/-- The fields of a registered message handler (models/core.py `MessageHandler`) read
by dispatch; the compiled trigger pattern is abstracted by the success predicate of
its `re.search` on the message text. -/
structure MessageHandler where
  regex : String → Bool
  handle_message_changed : Bool

/-- The handler-selection test of `dispatch_listeners` (handlers.py lines 279-284):
a handler is skipped when the event is an edit it did not opt into, and otherwise
fires iff its pattern search succeeds on `event.get("text", "")`. -/
def handler_fires (event : MsgEvent) (h : MessageHandler) : Bool :=
  if event.subtype = some "message_changed" ∧ h.handle_message_changed = false then false
  else h.regex (event.text.getD "")

/-- `dispatch_listeners` (handlers.py lines 271-298): the handlers whose calls are
scheduled and then awaited together (`asyncio.gather`) for the given event. -/
def dispatch_listeners (event : MsgEvent) (message_handlers : List MessageHandler) :
    List MessageHandler :=
  message_handlers.filter (handler_fires event)

/-- The observable outcome of `handle_message` for one inbound message event. -/
inductive Dispatch where
  /-- an uncaught `KeyError`: the event has the `message_changed` subtype but no
  nested `message` payload. -/
  | crash
  /-- no dispatch: the event has no sender, or the sender is the bot itself. -/
  | skipped
  /-- `dispatch_listeners` ran with this effective event and invoked exactly these
  handlers. -/
  | dispatched (event : MsgEvent) (handlers : List MessageHandler)

/-- `handle_message` after the edited-message promotion step (handlers.py lines
208-220): skip events without a non-bot sender; candidates are the listen handlers
plus, when `_check_bot_mention` reports the message addressed, the respond handlers,
run against the (possibly mention-stripped) event. -/
def handle_message_core (event : MsgEvent) (bot_name bot_id : String)
    (message_matcher : Option (List String))
    (listen_to respond_to : List MessageHandler) : Dispatch :=
  match event.user with
  | none => .skipped
  | some u =>
    if u = bot_id then .skipped
    else
      match check_bot_mention event bot_name bot_id message_matcher with
      | some respond_to_msg =>
        .dispatched respond_to_msg (dispatch_listeners respond_to_msg (listen_to ++ respond_to))
      | none => .dispatched event (dispatch_listeners event listen_to)

/-- The edited-message promotion of `handle_message` (handlers.py lines 200-207): the
nested payload becomes the effective event, keeping the channel, channel type and the
`message_changed` subtype marker. -/
def promote_message_changed (event : MsgEvent) (m : InnerMessage) : MsgEvent :=
  { user := m.user, text := m.text, channel := event.channel,
    channel_type := event.channel_type, subtype := some "message_changed",
    message := none }

/-- `handle_message` (handlers.py lines 190-220): promote an edited message's nested
payload, then run mention detection and dispatch. Reading the absent
`event["message"]` key would raise an uncaught `KeyError`, modelled as `crash`. -/
def handle_message (event : MsgEvent) (bot_name bot_id : String)
    (message_matcher : Option (List String))
    (listen_to respond_to : List MessageHandler) : Dispatch :=
  if event.subtype = some "message_changed" then
    match event.message with
    | none => .crash
    | some m =>
      handle_message_core (promote_message_changed event m) bot_name bot_id
        message_matcher listen_to respond_to
  else
    handle_message_core event bot_name bot_id message_matcher listen_to respond_to

/-! ### Slash commands (`handle_slash_command_request`, handlers.py lines 60-94) -/

/-- One step of a slash-command handler coroutine, as observed by the dispatcher: an
observable side effect, or an `await`-point where an async generator yields a
response payload. -/
inductive GenStep where
  | effect (label : Nat)
  | yieldVal (payload : String)
  deriving Repr, DecidableEq

/-- `gen.__anext__()`: run an async generator until its next yield. Returns the side
effects performed, the yielded payload (`none` models `StopAsyncIteration`), and the
steps still suspended after the yield. -/
def runToNextYield : List GenStep → List Nat × Option String × List GenStep
  | [] => ([], none, [])
  | .yieldVal v :: rest => ([], some v, rest)
  | .effect l :: rest =>
    let r := runToNextYield rest
    (l :: r.1, r.2.1, r.2.2)

/-- A registered slash-command handler (models/core.py `CommandHandler`), abstracted
by the behaviour of its function: the step trace of an async generator when
`is_generator` is set, or the side-effect trace of a plain coroutine. -/
inductive CommandHandler where
  | generator (steps : List GenStep)
  | plain (effects : List Nat)
  deriving Repr, DecidableEq

/-- An observable action of `handle_slash_command_request`, in order: an
acknowledgement sent to the gateway (with its optional payload), a handler side
effect, or an uncaught `StopAsyncIteration` from the first `__anext__` call. -/
inductive SlashEv where
  | ack (payload : Option String)
  | effect (label : Nat)
  | raised
  deriving Repr, DecidableEq

/-- `handle_slash_command_request` (handlers.py lines 60-94): the ordered observable
trace, paired with the handler steps left suspended — and hence never executed —
when the dispatcher returns. An unknown command does nothing. A generator handler is
run to its first yield, whose payload is sent with the acknowledgement, then resumed
exactly once more (`await gen.__anext__()` with `StopAsyncIteration` caught); a
non-generator handler is awaited to completion after a bare acknowledgement. -/
def handle_slash_command_request (command_registry : List (String × CommandHandler))
    (command : String) : List SlashEv × List GenStep :=
  match command_registry.lookup command with
  | none => ([], [])
  | some (.plain effects) => (.ack none :: effects.map .effect, [])
  | some (.generator steps) =>
    let first := runToNextYield steps
    match first.2.1 with
    | none => (first.1.map .effect ++ [.raised], [])
    | some payload =>
      let second := runToNextYield first.2.2
      (first.1.map .effect ++ .ack (some payload) :: second.1.map .effect, second.2.2)

/-! ### Interactive block actions and view submissions
(`interactive_event_handler` lines 124-148, `view_event_handler` lines 155-175,
`Interactive.__init__` interactive.py lines 28-31, `View.__init__` view.py 30-38) -/

/-- One entry of a `block_actions` payload's `actions` array; an absent `action_id`
key is `none`. -/
structure BlockAction where
  action_id : Option String
  deriving Repr, DecidableEq

/-- The fields of an interactive `block_actions` payload read by the dispatcher and
by `Interactive.__init__`; absent dict keys are `none`. -/
structure InteractivePayload where
  payload_type : String
  actions : Option (List BlockAction)
  response_url : Option String
  deriving Repr, DecidableEq

/-- The `view` object of a `view_submission` payload; an absent `callback_id` key is
`none`. -/
structure ViewInfo where
  callback_id : Option String
  deriving Repr, DecidableEq

/-- The fields of a `view_submission` payload read by the dispatcher and by
`View.__init__`; absent dict keys are `none`. -/
structure ViewPayload where
  payload_type : String
  view : Option ViewInfo
  response_urls : List String
  deriving Repr, DecidableEq

/-- An observable action of the interactive/view dispatchers, in order: the
acknowledgement, the logged warning for a malformed payload, a handler invocation,
or an uncaught exception escaping the dispatcher. -/
inductive InteractiveEv where
  | ack
  | warned
  | invoked (trigger : String)
  | crashed
  deriving Repr, DecidableEq

/-- `request.payload["actions"][0]["action_id"]` under
`try/except (KeyError, IndexError, TypeError)` (handlers.py lines 133-138): `none`
when the `actions` key is absent, the array is empty, or the entry has no
`action_id`. -/
def extract_action_id (p : InteractivePayload) : Option String :=
  match p.actions with
  | none => none
  | some [] => none
  | some (a :: _) => a.action_id

/-- `interactive_event_handler` (handlers.py lines 124-148) for a request of the
given type: acknowledge, extract the action id (warn and stop when absent), look it
up, and invoke the single matching handler. `Interactive.__init__` (interactive.py
line 31) reads `cmd_payload["response_url"]` unguarded, so building the context for
a registered action with no response URL raises an uncaught `KeyError`. -/
def interactive_event_handler (interactive_registry : List String)
    (request_type : String) (p : InteractivePayload) : List InteractiveEv :=
  if request_type = "interactive" ∧ p.payload_type = "block_actions" then
    match extract_action_id p with
    | none => [.ack, .warned]
    | some action_id =>
      if action_id ∈ interactive_registry then
        match p.response_url with
        | none => [.ack, .crashed]
        | some _ => [.ack, .invoked action_id]
      else [.ack]
  else []

/-- `request.payload["view"]["callback_id"]` under
`try/except (KeyError, IndexError, TypeError)` (handlers.py lines 162-166). -/
def extract_callback_id (p : ViewPayload) : Option String :=
  match p.view with
  | none => none
  | some v => v.callback_id

/-- `view_event_handler` (handlers.py lines 155-175): acknowledge, extract the
callback id (warn and stop when absent), look it up, and invoke the single matching
handler. `View.__init__` (view.py lines 33-38) guards the `response_urls` key, so
context building cannot raise on an absent response URL. -/
def view_event_handler (view_registry : List String)
    (request_type : String) (p : ViewPayload) : List InteractiveEv :=
  if request_type = "interactive" ∧ p.payload_type = "view_submission" then
    match extract_callback_id p with
    | none => [.ack, .warned]
    | some callback_id =>
      if callback_id ∈ view_registry then [.ack, .invoked callback_id]
      else [.ack]
  else []

/-! ### Generic process events (`handle_event_request` lines 100-113,
`dispatch_event_handlers` lines 301-305)

`await asyncio.gather(*handler_funcs)` runs all handler coroutines as tasks on the
single-threaded cooperative event loop, modelled by deterministic round-robin
scheduling, one step per task per loop pass. `gather` is awaited with the default
`return_exceptions=False`: the FIRST handler exception is propagated to the awaiting
dispatcher, which resumes at the start of the next pass — before the re-queued
sibling tasks — and lets the exception escape `dispatch_event_handlers` and
`handle_event_request` uncaught. The sibling tasks are NOT cancelled: they keep
running on the loop to completion, but their remaining effects occur only AFTER the
dispatch call has already raised. The model therefore separates, per dispatch, the
effects observed before the `await gather` completes (normally or exceptionally)
from the background effects that follow an escaped exception. -/

/-- One step of a process-event handler coroutine: an observable effect, or an
uncaught exception terminating that handler. -/
inductive TaskStep where
  | eff (label : Nat)
  | failStep
  deriving Repr, DecidableEq

/-- One pass of the event loop over the ready tasks: each task runs one step, in
order. A finished task leaves the loop; a task hitting `failStep` is terminated by
its exception — the remaining tasks of the pass still run their already-queued step.
Returns the effects of the pass, the tasks still pending, and whether some task
raised during the pass (the signal that an awaited `gather` over these tasks
completes exceptionally at the end of the pass). -/
def schedRound : List (List TaskStep) → List Nat × List (List TaskStep) × Bool
  | [] => ([], [], false)
  | [] :: ts => schedRound ts
  | (.eff l :: rest) :: ts =>
    let r := schedRound ts
    (l :: r.1, rest :: r.2.1, r.2.2)
  | (.failStep :: _) :: ts =>
    let r := schedRound ts
    (r.1, r.2.1, true)

/-- The total number of steps left in a task list. -/
def totalLen (ts : List (List TaskStep)) : Nat := (ts.map List.length).sum

/-- The `await asyncio.gather(...)` phase (fuelled; every pass strictly shrinks
`totalLen`, so `totalLen ts + 1` passes always suffice): run passes until a task
raises or all tasks finish. Returns the effects observed before the await completes,
the sibling tasks still pending at that moment, and whether the gather completed
exceptionally — in which case the dispatcher re-raises and the pending tasks keep
running only after it has done so. -/
def runGatherAux : Nat → List (List TaskStep) → List Nat × List (List TaskStep) × Bool
  | 0, _ => ([], [], false)
  | n + 1, ts =>
    let r := schedRound ts
    if r.2.2 = true then r
    else
      match r.2.1 with
      | [] => (r.1, [], false)
      | t :: ts' =>
        let rest := runGatherAux n (t :: ts')
        (r.1 ++ rest.1, rest.2.1, rest.2.2)

/-- Run the loop to quiescence with no one awaiting (fuelled as above): the
background execution of the sibling tasks left pending after the dispatcher raised.
A failure here has no awaiter — the loop drops the task and the others continue. -/
def runTasksAux : Nat → List (List TaskStep) → List Nat
  | 0, _ => []
  | n + 1, ts =>
    let r := schedRound ts
    match r.2.1 with
    | [] => r.1
    | t :: ts' => r.1 ++ runTasksAux n (t :: ts')

/-- The observable outcome of one `await asyncio.gather(*handler_funcs)`. -/
structure GatherOutcome where
  /-- effects that occur before the `await gather` completes, i.e. inside the
  dispatch call. -/
  beforeReturn : List Nat
  /-- the first handler exception was propagated to the awaiting dispatcher and
  escapes it uncaught. -/
  raised : Bool
  /-- effects of the surviving sibling tasks, run by the loop only after the
  dispatch call has already raised (empty when the gather completed normally,
  because then it waited for every task to finish). -/
  background : List Nat
  deriving Repr, DecidableEq

/-- `dispatch_event_handlers` (handlers.py lines 301-305): every handler is called
with the raw event payload and the coroutines are awaited via `asyncio.gather`. -/
def dispatch_event_handlers (event : Nat) (event_handlers : List (Nat → List TaskStep)) :
    GatherOutcome :=
  let tasks := event_handlers.map (fun f => f event)
  let g := runGatherAux (totalLen tasks + 1) tasks
  { beforeReturn := g.1, raised := g.2.2,
    background := runTasksAux (totalLen g.2.1 + 1) g.2.1 }

/-- An observable action of the generic event dispatcher: the acknowledgement or a
handler effect. -/
inductive ProcessEv where
  | ack
  | eff (label : Nat)
  deriving Repr, DecidableEq

/-- The observable outcome of `handle_event_request` for one request. -/
structure EventOutcome where
  /-- what happens before the call returns or raises: the acknowledgement and the
  handler effects of the gather phase. -/
  trace : List ProcessEv
  /-- a handler exception escaped `handle_event_request` uncaught. -/
  raised : Bool
  /-- sibling handler effects that the loop runs only after the call raised. -/
  background : List Nat
  deriving Repr, DecidableEq

/-- `handle_event_request` (handlers.py lines 100-113): for an `events_api` request,
acknowledge first, then — only when the event type is in the process registry —
dispatch to every handler registered for that type. A handler exception propagates
out of the `await` of `dispatch_event_handlers` uncaught. -/
def handle_event_request (process_registry : List (String × List (Nat → List TaskStep)))
    (request_type : String) (event_type : String) (event : Nat) : EventOutcome :=
  if request_type = "events_api" then
    match process_registry.lookup event_type with
    | none => { trace := [.ack], raised := false, background := [] }
    | some handlers =>
      let g := dispatch_event_handlers event handlers
      { trace := .ack :: g.beforeReturn.map .eff, raised := g.raised,
        background := g.background }
  else { trace := [], raised := false, background := [] }

/-- The effects a handler coroutine performs before completing or raising: the part
of the task guaranteed to execute on the loop. -/
def effectsBeforeFail : List TaskStep → List Nat
  | [] => []
  | .eff l :: rest => l :: effectsBeforeFail rest
  | .failStep :: _ => []

/-! ### SQLite storage backend (`machine/storage/backends/sqlite.py`)

The file contains an unresolved merge conflict; both branches of `set`/`get`/`has`
are embedded. The table is an association list of rows `(key, value, expires_at)`
with `INSERT OR REPLACE` keeping keys unique; `now` stands for `int(time.time())`
at the moment the statement runs. -/

/-- The storage table: rows of key, value and the nullable expiry column. -/
abbrev SQLiteTable := List (String × String × Option Nat)

/-- The row filter of the `get`/`has` queries:
`key=? AND (expires_at > ? OR expires_at IS NULL)` — expiry is checked lazily
against the current time at read time. -/
def rowLive (key : String) (now : Nat) (r : String × String × Option Nat) : Bool :=
  r.1 == key && (match r.2.2 with | none => true | some e => decide (now < e))

/-- `SQLiteStorage.set`, second conflict branch (sqlite.py lines 57-69):
`expires_at = int(time.time()) + expires` when a ttl is given, then
`INSERT OR REPLACE` of the row. -/
def sqliteSet (table : SQLiteTable) (key value : String) (expires : Option Nat)
    (now : Nat) : SQLiteTable :=
  (key, value, expires.map (fun e => now + e)) :: table.filter (fun r => r.1 != key)

/-- `SQLiteStorage.set`, HEAD conflict branch (sqlite.py lines 50-55): the raw
`expires` argument is stored in the expiry column without adding the current time. -/
def sqliteSetHead (table : SQLiteTable) (key value : String) (expires : Option Nat) :
    SQLiteTable :=
  (key, value, expires) :: table.filter (fun r => r.1 != key)

/-- `SQLiteStorage.get` (both conflict branches run the same query, sqlite.py lines
75-77 and 79-84): the value of the live row for the key, if any. -/
def sqliteGet (table : SQLiteTable) (key : String) (now : Nat) : Option String :=
  (table.find? (rowLive key now)).map (fun r => r.2.1)

/-- `SQLiteStorage.has` (both conflict branches run the same EXISTS query, sqlite.py
lines 101-119): whether a live row for the key exists. -/
def sqliteHas (table : SQLiteTable) (key : String) (now : Nat) : Bool :=
  (table.find? (rowLive key now)).isSome

/-! ## Helper lemmas -/

/-- A greedy `\w+` over a run of word characters stops exactly at the first non-word
character. -/
theorem takeWordRun_append (xs : List Char) (y : Char) (ys : List Char)
    (hxs : ∀ c ∈ xs, isWordChar c = true) (hy : isWordChar y = false) :
    takeWordRun (xs ++ y :: ys) = (xs, y :: ys) := by
  induction xs with
  | nil => simp [takeWordRun, hy]
  | cons c cs ih =>
    have hc : isWordChar c = true := hxs c (List.mem_cons_self c cs)
    have ih' := ih (fun d hd => hxs d (List.mem_cons_of_mem c hd))
    simp [takeWordRun, hc, ih']

/-- The first pattern alternative on an input of the form `<@id> rest`, `id` a
non-empty word-character run: `atuser` captures `id` and the optional colon is not
consumed. -/
theorem matchAtUser_at_mention (botid rest : String)
    (hid : botid.data ≠ []) (hw : ∀ c ∈ botid.data, isWordChar c = true) :
    matchAtUser ('<' :: '@' :: (botid.data ++ '>' :: ' ' :: rest.data))
      = some (botid, ' ' :: rest.data) := by
  have hne : botid.data.isEmpty = false := by
    cases h : botid.data with
    | nil => exact absurd h hid
    | cons c cs => rfl
  simp [matchAtUser, stripLit,
    takeWordRun_append botid.data '>' (' ' :: rest.data) hw (by decide), hne]

/-- The full mention pattern on `<@id> rest`: only the `atuser` group participates
and `text` captures `rest`, for any alias configuration. -/
theorem matchMention_at_mention (aliases : Option (List String)) (botid rest : String)
    (hid : botid.data ≠ []) (hw : ∀ c ∈ botid.data, isWordChar c = true) :
    matchMention aliases ("<@" ++ botid ++ "> " ++ rest)
      = some ⟨some botid, none, none, rest⟩ := by
  have hdata : ("<@" ++ botid ++ "> " ++ rest).data
      = '<' :: '@' :: (botid.data ++ '>' :: ' ' :: rest.data) := by
    show ("<@".data ++ botid.data ++ "> ".data) ++ rest.data = _
    simp
  have hat := matchAtUser_at_mention botid rest hid hw
  simp only [matchMention, hdata, hat, matchTail, stripLit, if_true]

/-! ## Claim C1 -/

/-- C1 counterexample: with aliases `bot,assistant`, bot name `alice` and bot id
`U42`, the channel message `"bot: do thing"` is captured by the `username`
alternative — the `alias` group does not fire — and `_check_bot_mention` reports the
message NOT addressed to the bot, contradicting the claim that the alias group fires
and the message is treated as a self-mention. -/
theorem C1_counterexample :
    matchMention (generate_message_matcher (some "bot,assistant")) "bot: do thing"
      = some ⟨none, some "bot", none, "do thing"⟩
    ∧ check_bot_mention
        { user := some "U1", text := some "bot: do thing", channel := "C1",
          channel_type := "channel", subtype := none, message := none }
        "alice" "U42" (generate_message_matcher (some "bot,assistant")) = none :=
  ⟨by decide, by decide⟩

/-- C1 (corrected): in a channel or group, a message whose text begins with the
configured alias `bot` followed by a colon is captured by the `username` group (the
`username:` alternative precedes the alias alternative, so the alias group never
fires for it); the message is treated as addressed to the bot — with the remaining
text extracted — exactly when that alias equals the bot's display name. -/
theorem C1_alias_colon_captured_as_username (bot_name bot_id rest : String) (e : MsgEvent)
    (hch : e.channel_type = "channel" ∨ e.channel_type = "group")
    (htext : e.text = some ("bot: " ++ rest)) :
    check_bot_mention e bot_name bot_id (generate_message_matcher (some "bot,assistant"))
      = if bot_name = "bot" then some { e with text := some rest } else none := by
  have hm : matchMention (generate_message_matcher (some "bot,assistant")) ("bot: " ++ rest)
      = some ⟨none, some "bot", none, rest⟩ := rfl
  by_cases hbn : bot_name = "bot"
  · subst hbn
    simp [check_bot_mention, htext, hm, hch]
  · simp [check_bot_mention, htext, hm, hch, hbn, Ne.symm hbn]

/-- C1 witness for the corrected claim: `"bot: do thing"` with bot name `alice` is
not addressed; the same message with bot name `bot` is addressed with text
`"do thing"`. -/
theorem C1_alias_colon_witness :
    check_bot_mention
      { user := some "U1", text := some ("bot: " ++ "do thing"), channel := "C1",
        channel_type := "channel", subtype := none, message := none }
      "alice" "U42" (generate_message_matcher (some "bot,assistant")) = none
    ∧ check_bot_mention
      { user := some "U1", text := some ("bot: " ++ "do thing"), channel := "C1",
        channel_type := "channel", subtype := none, message := none }
      "bot" "U42" (generate_message_matcher (some "bot,assistant"))
      = some { user := some "U1", text := some "do thing", channel := "C1",
               channel_type := "channel", subtype := none, message := none } :=
  ⟨by rw [C1_alias_colon_captured_as_username "alice" "U42" "do thing" _ (Or.inl rfl) rfl]; decide,
   by rw [C1_alias_colon_captured_as_username "bot" "U42" "do thing" _ (Or.inl rfl) rfl]; decide⟩

/-! ## Claim C10 -/

/-- C10: in a channel or group, a message of the form `<@BOTID> rest` — an explicit
mention of the bot's own identifier with no colon after the mention token — is
treated as addressed to the bot and the extracted text is `rest`; the colon after
the at-mention form is optional. -/
theorem C10_at_mention_colon_optional (aliases : Option (List String))
    (bot_name bot_id rest : String) (e : MsgEvent)
    (hid : bot_id.data ≠ []) (hw : ∀ c ∈ bot_id.data, isWordChar c = true)
    (hch : e.channel_type = "channel" ∨ e.channel_type = "group")
    (htext : e.text = some ("<@" ++ bot_id ++ "> " ++ rest)) :
    check_bot_mention e bot_name bot_id aliases = some { e with text := some rest } := by
  have hm := matchMention_at_mention aliases bot_id rest hid hw
  simp [check_bot_mention, htext, hm, hch]

/-- C10 witness: `"<@U42> rest"` in a channel, bot id `U42`, is addressed with
extracted text `"rest"`. -/
theorem C10_witness :
    check_bot_mention
      { user := some "U1", text := some ("<@" ++ "U42" ++ "> " ++ "rest"), channel := "C1",
        channel_type := "channel", subtype := none, message := none }
      "alice" "U42" none
      = some { user := some "U1", text := some "rest", channel := "C1",
               channel_type := "channel", subtype := none, message := none } :=
  C10_at_mention_colon_optional none "alice" "U42" "rest" _
    (by decide) (by decide) (Or.inl rfl) rfl

/-! ## Claim C4 -/

/-- C4: a channel/group message that is not addressed to the bot — the text does not
match the mention pattern, or it matches with no alias participating, a captured
mention other than the bot's id and a captured username other than the bot's name —
is dispatched with its text unchanged to the listen handlers only; the respond
handlers never become candidates. -/
theorem C4_unaddressed_listen_only (bot_name bot_id : String)
    (message_matcher : Option (List String)) (listen_to respond_to : List MessageHandler)
    (e : MsgEvent) (u : String)
    (hu : e.user = some u) (hub : u ≠ bot_id)
    (hsub : e.subtype ≠ some "message_changed")
    (hch : e.channel_type = "channel" ∨ e.channel_type = "group")
    (hnm : ∀ g, matchMention message_matcher (e.text.getD "") = some g →
        g.aliasGroup = none ∧ g.atuser ≠ some bot_id ∧ g.username ≠ some bot_name) :
    handle_message e bot_name bot_id message_matcher listen_to respond_to
      = .dispatched e (dispatch_listeners e listen_to) := by
  have hcb : check_bot_mention e bot_name bot_id message_matcher = none := by
    unfold check_bot_mention
    rw [if_pos hch]
    cases hm : matchMention message_matcher (e.text.getD "") with
    | none => rfl
    | some g =>
      obtain ⟨ha, hat, hun⟩ := hnm g hm
      simp [ha, hat, hun]
  simp [handle_message, hsub, handle_message_core, hu, hub, hcb]

/-- C4 witness: the spec's example `"<@U999>: do thing"` (a different user mentioned)
in a channel, with bot `alice`/`U42` and aliases `bot,assistant`: only the listen
handler set is dispatched and the text is unchanged. -/
theorem C4_witness :
    handle_message
      { user := some "U1", text := some "<@U999>: do thing", channel := "C1",
        channel_type := "channel", subtype := none, message := none }
      "alice" "U42" (generate_message_matcher (some "bot,assistant"))
      [⟨fun _ => true, false⟩] [⟨fun _ => true, false⟩]
      = .dispatched
          { user := some "U1", text := some "<@U999>: do thing", channel := "C1",
            channel_type := "channel", subtype := none, message := none }
          (dispatch_listeners
            { user := some "U1", text := some "<@U999>: do thing", channel := "C1",
              channel_type := "channel", subtype := none, message := none }
            [⟨fun _ => true, false⟩]) :=
  C4_unaddressed_listen_only "alice" "U42" _ _ _ _ "U1" rfl (by decide) (by decide)
    (Or.inl rfl)
    (fun g hg => by
      have hg' : matchMention (generate_message_matcher (some "bot,assistant"))
          "<@U999>: do thing" = some g := hg
      rw [show matchMention (generate_message_matcher (some "bot,assistant"))
            "<@U999>: do thing" = some ⟨some "U999", none, none, "do thing"⟩ by decide] at hg'
      injection hg' with h
      subst h
      refine ⟨rfl, by decide, by decide⟩)

/-! ## Claim C5 -/

/-- C5: in a direct-message context the message is always dispatched as addressed —
the respond handlers are candidates alongside the listen handlers — and the text is
the mention-stripped capture when the pattern matches, the original text verbatim
otherwise. -/
theorem C5_dm_always_addressed (bot_name bot_id : String)
    (message_matcher : Option (List String)) (listen_to respond_to : List MessageHandler)
    (e : MsgEvent) (u : String)
    (hu : e.user = some u) (hub : u ≠ bot_id)
    (hsub : e.subtype ≠ some "message_changed")
    (hch : e.channel_type = "im") :
    handle_message e bot_name bot_id message_matcher listen_to respond_to
      = (match matchMention message_matcher (e.text.getD "") with
         | some g =>
           .dispatched { e with text := some g.text }
             (dispatch_listeners { e with text := some g.text } (listen_to ++ respond_to))
         | none => .dispatched e (dispatch_listeners e (listen_to ++ respond_to))) := by
  have hnc : ¬(e.channel_type = "channel" ∨ e.channel_type = "group") := by
    rw [hch]; decide
  have hcb : check_bot_mention e bot_name bot_id message_matcher
      = (match matchMention message_matcher (e.text.getD "") with
         | some g => some { e with text := some g.text }
         | none => some e) := by
    unfold check_bot_mention
    rw [if_neg hnc]
  cases hm : matchMention message_matcher (e.text.getD "") with
  | none =>
    rw [hm] at hcb
    simp [handle_message, hsub, handle_message_core, hu, hub, hcb]
  | some g =>
    rw [hm] at hcb
    simp [handle_message, hsub, handle_message_core, hu, hub, hcb]

/-- C5 witness: the direct message `"hello"` (which does not match the mention
pattern) is dispatched as addressed — listen and respond handlers are candidates —
with its original text. -/
theorem C5_witness :
    handle_message
      { user := some "U1", text := some "hello", channel := "D1",
        channel_type := "im", subtype := none, message := none }
      "alice" "U42" (generate_message_matcher (some "bot,assistant"))
      [⟨fun _ => true, false⟩] [⟨fun _ => false, false⟩]
      = .dispatched
          { user := some "U1", text := some "hello", channel := "D1",
            channel_type := "im", subtype := none, message := none }
          (dispatch_listeners
            { user := some "U1", text := some "hello", channel := "D1",
              channel_type := "im", subtype := none, message := none }
            ([⟨fun _ => true, false⟩] ++ [⟨fun _ => false, false⟩])) :=
  C5_dm_always_addressed "alice" "U42" _ _ _ _ "U1" rfl (by decide) (by decide) rfl

/-! ## Claim C6 -/

/-- When `_check_bot_mention` returns an event, it is the input event with at most
its text replaced by the captured `text` group of a successful match. -/
theorem check_bot_mention_shape (event : MsgEvent) (bot_name bot_id : String)
    (message_matcher : Option (List String)) (r : MsgEvent)
    (h : check_bot_mention event bot_name bot_id message_matcher = some r) :
    r = event
    ∨ ∃ g, matchMention message_matcher (event.text.getD "") = some g
        ∧ r = { event with text := some g.text } := by
  simp only [check_bot_mention] at h
  split at h
  · split at h
    · exact absurd h (by simp)
    · rename_i g hm
      split at h <;> split at h
      · exact absurd h (by simp)
      · exact Or.inr ⟨g, hm, (Option.some.inj h).symm⟩
      · exact absurd h (by simp)
      · exact Or.inr ⟨g, hm, (Option.some.inj h).symm⟩
  · split at h
    · rename_i g hm
      exact Or.inr ⟨g, hm, (Option.some.inj h).symm⟩
    · exact Or.inl (Option.some.inj h).symm

/-- A handler that fires on an edited-message event has opted into edited
messages. -/
theorem handler_fires_message_changed (ev : MsgEvent) (h : MessageHandler)
    (hs : ev.subtype = some "message_changed") (hf : handler_fires ev h = true) :
    h.handle_message_changed = true := by
  cases hc : h.handle_message_changed with
  | true => rfl
  | false => rw [handler_fires, if_pos ⟨hs, hc⟩] at hf; exact absurd hf (by simp)

/-- C6: an inbound event with the `message_changed` subtype is dispatched exactly as
the promoted nested payload (channel, channel type and subtype marker copied over),
the promotion happening before mention detection and dispatch; every handler invoked
for it has opted into edited messages, and the effective event the handlers see
carries the edited text (possibly mention-stripped). -/
theorem C6_edited_promotion (bot_name bot_id : String)
    (message_matcher : Option (List String)) (listen_to respond_to : List MessageHandler)
    (e : MsgEvent) (m : InnerMessage)
    (hsub : e.subtype = some "message_changed") (hmsg : e.message = some m) :
    handle_message e bot_name bot_id message_matcher listen_to respond_to
      = handle_message_core (promote_message_changed e m) bot_name bot_id
          message_matcher listen_to respond_to
    ∧ ∀ ev hs,
        handle_message e bot_name bot_id message_matcher listen_to respond_to
          = .dispatched ev hs →
        ev.subtype = some "message_changed"
        ∧ (∀ h ∈ hs, h.handle_message_changed = true)
        ∧ (ev.text = m.text
           ∨ ∃ g, matchMention message_matcher (m.text.getD "") = some g
               ∧ ev.text = some g.text) := by
  have hpromote :
      handle_message e bot_name bot_id message_matcher listen_to respond_to
        = handle_message_core (promote_message_changed e m) bot_name bot_id
            message_matcher listen_to respond_to := by
    simp [handle_message, hsub, hmsg]
  refine ⟨hpromote, ?_⟩
  intro ev hs heq
  rw [hpromote] at heq
  have hevfacts : ev.subtype = some "message_changed"
      ∧ (ev.text = m.text
         ∨ ∃ g, matchMention message_matcher (m.text.getD "") = some g
             ∧ ev.text = some g.text)
      ∧ (hs = dispatch_listeners ev (listen_to ++ respond_to)
         ∨ hs = dispatch_listeners ev listen_to) := by
    unfold handle_message_core at heq
    split at heq
    · exact absurd heq (by simp)
    · split at heq
      · exact absurd heq (by simp)
      · split at heq
        · rename_i r hcb
          injection heq with h1 h2
          subst h1; subst h2
          rcases check_bot_mention_shape _ _ _ _ _ hcb with hr | ⟨g, hg, hr⟩
          · subst hr; exact ⟨rfl, Or.inl rfl, Or.inl rfl⟩
          · subst hr; exact ⟨rfl, Or.inr ⟨g, hg, rfl⟩, Or.inl rfl⟩
        · injection heq with h1 h2
          subst h1; subst h2
          exact ⟨rfl, Or.inl rfl, Or.inr rfl⟩
  obtain ⟨hsub', htext', hhs⟩ := hevfacts
  refine ⟨hsub', ?_, htext'⟩
  intro h hh
  rcases hhs with hhs | hhs <;> rw [hhs] at hh <;>
    exact handler_fires_message_changed ev h hsub' (List.of_mem_filter hh)

/-- C6 witness: an edited channel message whose nested payload mentions the bot is
dispatched as the promoted event; the only invoked handler opted into edits and sees
the edited, mention-stripped text. -/
theorem C6_witness :
    handle_message
      { user := some "U9", text := some "old", channel := "C1",
        channel_type := "channel", subtype := some "message_changed",
        message := some ⟨some "U1", some "<@U42> hello"⟩ }
      "alice" "U42" none [⟨fun _ => true, true⟩] [⟨fun _ => true, false⟩]
      = handle_message_core
          (promote_message_changed
            { user := some "U9", text := some "old", channel := "C1",
              channel_type := "channel", subtype := some "message_changed",
              message := some ⟨some "U1", some "<@U42> hello"⟩ }
            ⟨some "U1", some "<@U42> hello"⟩)
          "alice" "U42" none [⟨fun _ => true, true⟩] [⟨fun _ => true, false⟩]
    ∧ ∀ ev hs,
        handle_message
          { user := some "U9", text := some "old", channel := "C1",
            channel_type := "channel", subtype := some "message_changed",
            message := some ⟨some "U1", some "<@U42> hello"⟩ }
          "alice" "U42" none [⟨fun _ => true, true⟩] [⟨fun _ => true, false⟩]
          = .dispatched ev hs →
        ev.subtype = some "message_changed"
        ∧ (∀ h ∈ hs, h.handle_message_changed = true)
        ∧ (ev.text = some "<@U42> hello"
           ∨ ∃ g, matchMention none ((some "<@U42> hello").getD "") = some g
               ∧ ev.text = some g.text) :=
  C6_edited_promotion "alice" "U42" none [⟨fun _ => true, true⟩] [⟨fun _ => true, false⟩]
    _ ⟨some "U1", some "<@U42> hello"⟩ rfl rfl

/-! ## Claim C2 -/

/-- C2 counterexample: an incremental handler that yields a second value is NOT
resumed to completion. With steps `[yield "a", effect 1, yield "b", effect 2]` the
dispatcher acknowledges with `"a"`, runs `effect 1`, discards `"b"`, and leaves the
handler suspended with `effect 2` never executed — contradicting "resumes the
handler to completion". -/
theorem C2_counterexample :
    handle_slash_command_request
        [("/inc", .generator [.yieldVal "a", .effect 1, .yieldVal "b", .effect 2])] "/inc"
      = ([.ack (some "a"), .effect 1], [.effect 2])
    ∧ (handle_slash_command_request
        [("/inc", .generator [.yieldVal "a", .effect 1, .yieldVal "b", .effect 2])] "/inc").2
      ≠ [] :=
  ⟨by decide, by decide⟩

/-- C2 (corrected): for an incremental (generator) handler whose first `__anext__`
produces a value, the dispatcher sends exactly that first value as the
acknowledgement payload — after the effects preceding the first yield and before any
further handler effect — then resumes the handler exactly once more: the effects up
to its next yield (or clean exhaustion, which is treated as success, never as a
`raised` error) run, a second yielded value is discarded, and whatever follows a
second yield stays suspended and is never executed. -/
theorem C2_incremental_single_resume (command_registry : List (String × CommandHandler))
    (command : String) (steps : List GenStep) (payload : String)
    (hc : command_registry.lookup command = some (.generator steps))
    (h1 : (runToNextYield steps).2.1 = some payload) :
    handle_slash_command_request command_registry command
      = ((runToNextYield steps).1.map .effect
          ++ .ack (some payload) :: (runToNextYield (runToNextYield steps).2.2).1.map .effect,
         (runToNextYield (runToNextYield steps).2.2).2.2) := by
  simp only [handle_slash_command_request, hc, h1]

/-- C2 witness for the corrected claim: a generator yielding `"ok"` and then
performing one effect: the trace is the payload acknowledgement followed by the
effect, with nothing left suspended. -/
theorem C2_incremental_witness :
    handle_slash_command_request [("/i", .generator [.yieldVal "ok", .effect 7])] "/i"
      = ([.ack (some "ok"), .effect 7], []) :=
  C2_incremental_single_resume [("/i", .generator [.yieldVal "ok", .effect 7])] "/i"
    [.yieldVal "ok", .effect 7] "ok" rfl rfl

/-! ## Claim C8 -/

/-- C8: a slash-command event whose command string is not in the command registry
produces no action at all: no acknowledgement is sent and no handler step runs. -/
theorem C8_unknown_command_no_action (command_registry : List (String × CommandHandler))
    (command : String) (h : command_registry.lookup command = none) :
    handle_slash_command_request command_registry command = ([], []) := by
  simp only [handle_slash_command_request, h]

/-- C8 witness: a registry containing only `/x` takes no action on `/y`. -/
theorem C8_witness :
    handle_slash_command_request [("/x", .plain [1])] "/y" = ([], []) :=
  C8_unknown_command_no_action [("/x", .plain [1])] "/y" rfl

/-! ## Claim C7 -/

/-- C7 counterexample: a `block_actions` payload carrying a registered action id but
missing the `response_url` key — a field needed to build the handler context
(`Interactive.__init__`) — makes the dispatcher raise an uncaught `KeyError` after
the acknowledgement, instead of logging a warning and dropping the event without a
crash. -/
theorem C7_counterexample :
    interactive_event_handler ["a1"] "interactive"
      { payload_type := "block_actions", actions := some [{ action_id := some "a1" }],
        response_url := none }
      = [.ack, .crashed] := by decide

/-- C7 (corrected): a block-action or view-submission payload from which no action
identifier (resp. callback identifier) can be extracted is acknowledged, logged as a
warning and dropped — no handler is invoked and nothing is surfaced to the gateway;
but a block-action payload with a registered action id and no `response_url` crashes
the dispatcher with an uncaught error after the acknowledgement, because building
the `Interactive` context reads that key unguarded. -/
theorem C7_missing_identifier_dropped (interactive_registry view_registry : List String)
    (p : InteractivePayload) (q : ViewPayload)
    (hp : p.payload_type = "block_actions") (hpa : extract_action_id p = none)
    (hq : q.payload_type = "view_submission") (hqa : extract_callback_id q = none) :
    interactive_event_handler interactive_registry "interactive" p = [.ack, .warned]
    ∧ view_event_handler view_registry "interactive" q = [.ack, .warned]
    ∧ ∀ (p' : InteractivePayload) (a : String), p'.payload_type = "block_actions" →
        extract_action_id p' = some a → a ∈ interactive_registry →
        p'.response_url = none →
        interactive_event_handler interactive_registry "interactive" p'
          = [.ack, .crashed] := by
  refine ⟨?_, ?_, ?_⟩
  · simp [interactive_event_handler, hp, hpa]
  · simp [view_event_handler, hq, hqa]
  · intro p' a hp' ha hm hr
    simp [interactive_event_handler, hp', ha, hm, hr]

/-- C7 witness for the corrected claim: an empty actions array and a view without a
callback id are both acknowledged, warned about and dropped. -/
theorem C7_witness :
    interactive_event_handler ["a1"] "interactive"
      { payload_type := "block_actions", actions := some [], response_url := none }
      = [.ack, .warned]
    ∧ view_event_handler ["c1"] "interactive"
      { payload_type := "view_submission", view := none, response_urls := [] }
      = [.ack, .warned]
    ∧ ∀ (p' : InteractivePayload) (a : String), p'.payload_type = "block_actions" →
        extract_action_id p' = some a → a ∈ ["a1"] →
        p'.response_url = none →
        interactive_event_handler ["a1"] "interactive" p' = [.ack, .crashed] :=
  C7_missing_identifier_dropped ["a1"] ["c1"]
    { payload_type := "block_actions", actions := some [], response_url := none }
    { payload_type := "view_submission", view := none, response_urls := [] }
    rfl rfl rfl rfl

/-! ## Claim C3 -/

/-- C3: the sqlite source file carries an unresolved merge conflict. Its HEAD branch
of `set` stores the raw ttl in the expiry column, so `set(key, value, ttl=1)`
executed at epoch time 1000 leaves the key immediately invisible to `get`/`has` —
the code contradicts the claimed behaviour. The other conflict branch (storing
`now + ttl`) behaves as claimed at the same input: visible immediately, gone once
the ttl has elapsed, with expiry checked lazily at read time. -/
theorem C3_ttl_head_branch_bug :
    sqliteGet (sqliteSetHead [] "k" "v" (some 1)) "k" 1000 = none
    ∧ sqliteHas (sqliteSetHead [] "k" "v" (some 1)) "k" 1000 = false
    ∧ sqliteGet (sqliteSet [] "k" "v" (some 1) 1000) "k" 1000 = some "v"
    ∧ sqliteHas (sqliteSet [] "k" "v" (some 1) 1000) "k" 1000 = true
    ∧ sqliteGet (sqliteSet [] "k" "v" (some 1) 1000) "k" 1001 = none
    ∧ sqliteHas (sqliteSet [] "k" "v" (some 1) 1000) "k" 1001 = false := by decide

/-- The `now + ttl` conflict branch satisfies the spec invariant in general: a key
just set with a ttl is visible to `get` exactly while the read time is below
`now + ttl`. -/
theorem sqliteSet_get_ttl (table : SQLiteTable) (key value : String) (e now t : Nat) :
    sqliteGet (sqliteSet table key value (some e) now) key t
      = if t < now + e then some value else none := by
  by_cases h : t < now + e
  · simp [sqliteGet, sqliteSet, rowLive, h]
  · simp [sqliteGet, sqliteSet, rowLive, h]
    intro a _ b _ hne heq
    exact absurd heq hne

/-! ## Claim C9 -/

/-- `totalLen` on a cons. -/
theorem totalLen_cons (t : List TaskStep) (ts : List (List TaskStep)) :
    totalLen (t :: ts) = t.length + totalLen ts := by
  simp [totalLen]

/-- A pass never grows the total number of pending steps. -/
theorem schedRound_totalLen_le (ts : List (List TaskStep)) :
    totalLen (schedRound ts).2.1 ≤ totalLen ts := by
  induction ts with
  | nil => simp [schedRound, totalLen]
  | cons t ts ih =>
    cases t with
    | nil => simpa [schedRound, totalLen_cons] using ih
    | cons s rest =>
      cases s with
      | eff l =>
        have := ih
        simp [schedRound, totalLen_cons]
        omega
      | failStep =>
        have := ih
        simp [schedRound, totalLen_cons]
        omega

/-- A task whose next step is an effect gets that effect executed in the pass and
stays pending with its remaining steps, whatever its siblings do. -/
theorem schedRound_mem_eff (ts : List (List TaskStep)) (l : Nat) (rest : List TaskStep)
    (h : (.eff l :: rest) ∈ ts) :
    l ∈ (schedRound ts).1 ∧ rest ∈ (schedRound ts).2.1 := by
  induction ts with
  | nil => cases h
  | cons t ts ih =>
    rcases List.mem_cons.mp h with heq | hmem
    · rw [← heq]
      simp [schedRound]
    · cases t with
      | nil => simpa [schedRound] using ih hmem
      | cons s rest' =>
        cases s with
        | eff l' =>
          have h' := ih hmem
          simp [schedRound]
          exact ⟨Or.inr h'.1, Or.inr h'.2⟩
        | failStep => simpa [schedRound] using ih hmem

/-- A pass either clears the loop or strictly shrinks the total number of pending
steps. -/
theorem schedRound_lt_or_nil (ts : List (List TaskStep)) :
    (schedRound ts).2.1 = [] ∨ totalLen (schedRound ts).2.1 < totalLen ts := by
  induction ts with
  | nil => exact Or.inl rfl
  | cons t ts ih =>
    cases t with
    | nil =>
      rcases ih with h | h
      · exact Or.inl (by simpa [schedRound] using h)
      · exact Or.inr (by simpa [schedRound, totalLen_cons] using h)
    | cons s rest =>
      cases s with
      | eff l =>
        refine Or.inr ?_
        have := schedRound_totalLen_le ts
        simp [schedRound, totalLen_cons]
        omega
      | failStep =>
        refine Or.inr ?_
        have := schedRound_totalLen_le ts
        simp [schedRound, totalLen_cons]
        omega

/-- With enough fuel, every effect a task performs before completing or raising
appears in the background (no-awaiter) run — regardless of what its siblings do. -/
theorem runTasksAux_mem (n : Nat) :
    ∀ (ts : List (List TaskStep)), totalLen ts < n →
      ∀ t ∈ ts, ∀ l ∈ effectsBeforeFail t, l ∈ runTasksAux n ts := by
  induction n with
  | zero => intro ts h; omega
  | succ n ih =>
    intro ts hlen t ht l hl
    cases t with
    | nil => simp [effectsBeforeFail] at hl
    | cons s rest =>
      cases s with
      | failStep => simp [effectsBeforeFail] at hl
      | eff l0 =>
        have hsr := schedRound_mem_eff ts l0 rest ht
        simp only [effectsBeforeFail, List.mem_cons] at hl
        simp only [runTasksAux]
        rcases hl with hl | hl
        · subst hl
          cases hr2 : (schedRound ts).2.1 with
          | nil => exact hsr.1
          | cons p ps => exact List.mem_append_left _ hsr.1
        · cases hr2 : (schedRound ts).2.1 with
          | nil =>
            rw [hr2] at hsr
            exact absurd hsr.2 (by simp)
          | cons p ps =>
            refine List.mem_append_right _ ?_
            rcases schedRound_lt_or_nil ts with hnil | hlt
            · rw [hr2] at hnil
              exact absurd hnil (by simp)
            · exact ih (p :: ps) (by rw [← hr2]; omega) rest (hr2 ▸ hsr.2) l hl

/-- With enough fuel, every effect a task performs before completing or raising
either occurs before the awaited gather completes or belongs to a task still
pending at that moment. -/
theorem runGatherAux_mem (n : Nat) :
    ∀ (ts : List (List TaskStep)), totalLen ts < n →
      ∀ t ∈ ts, ∀ l ∈ effectsBeforeFail t,
        l ∈ (runGatherAux n ts).1
        ∨ ∃ t', t' ∈ (runGatherAux n ts).2.1 ∧ l ∈ effectsBeforeFail t' := by
  induction n with
  | zero => intro ts h; omega
  | succ n ih =>
    intro ts hlen t ht l hl
    cases t with
    | nil => simp [effectsBeforeFail] at hl
    | cons s rest =>
      cases s with
      | failStep => simp [effectsBeforeFail] at hl
      | eff l0 =>
        have hsr := schedRound_mem_eff ts l0 rest ht
        simp only [effectsBeforeFail, List.mem_cons] at hl
        simp only [runGatherAux]
        by_cases hflag : (schedRound ts).2.2 = true
        · rw [if_pos hflag]
          rcases hl with hl | hl
          · subst hl
            exact Or.inl hsr.1
          · exact Or.inr ⟨rest, hsr.2, hl⟩
        · rw [if_neg hflag]
          cases hr2 : (schedRound ts).2.1 with
          | nil =>
            rcases hl with hl | hl
            · subst hl
              exact Or.inl hsr.1
            · rw [hr2] at hsr
              exact absurd hsr.2 (by simp)
          | cons p ps =>
            rcases hl with hl | hl
            · subst hl
              exact Or.inl (List.mem_append_left _ hsr.1)
            · rcases schedRound_lt_or_nil ts with hnil | hlt
              · rw [hr2] at hnil
                exact absurd hnil (by simp)
              · rcases ih (p :: ps) (by rw [← hr2]; omega) rest (hr2 ▸ hsr.2) l hl with
                  hin | ⟨t', ht', hl'⟩
                · exact Or.inl (List.mem_append_right _ hin)
                · exact Or.inr ⟨t', ht', hl'⟩

/-- A pass over tasks none of which ever raises reports no exception. -/
theorem schedRound_noFail_flag (ts : List (List TaskStep))
    (h : ∀ t ∈ ts, TaskStep.failStep ∉ t) :
    (schedRound ts).2.2 = false := by
  induction ts with
  | nil => rfl
  | cons t ts ih =>
    have hts : ∀ t' ∈ ts, TaskStep.failStep ∉ t' :=
      fun t' h' => h t' (List.mem_cons_of_mem _ h')
    cases t with
    | nil => simpa [schedRound] using ih hts
    | cons s rest =>
      cases s with
      | eff l => simpa [schedRound] using ih hts
      | failStep =>
        exact absurd (List.mem_cons_self _ _) (h _ (List.mem_cons_self _ _))

/-- A pass preserves "no task ever raises". -/
theorem schedRound_noFail_pending (ts : List (List TaskStep))
    (h : ∀ t ∈ ts, TaskStep.failStep ∉ t) :
    ∀ t' ∈ (schedRound ts).2.1, TaskStep.failStep ∉ t' := by
  induction ts with
  | nil => intro t' ht'; cases ht'
  | cons t ts ih =>
    have hts : ∀ t' ∈ ts, TaskStep.failStep ∉ t' :=
      fun t' h' => h t' (List.mem_cons_of_mem _ h')
    cases t with
    | nil => simpa [schedRound] using ih hts
    | cons s rest =>
      cases s with
      | eff l =>
        intro t' ht'
        rcases List.mem_cons.mp ht' with heq | hmem
        · subst heq
          intro hcon
          exact h _ (List.mem_cons_self _ _) (List.mem_cons_of_mem _ hcon)
        · exact ih hts t' hmem
      | failStep =>
        exact absurd (List.mem_cons_self _ _) (h _ (List.mem_cons_self _ _))

/-- When no handler coroutine raises, the awaited gather runs every task to
completion: it completes normally with no task left pending. -/
theorem runGatherAux_noFail (n : Nat) :
    ∀ (ts : List (List TaskStep)), totalLen ts < n →
      (∀ t ∈ ts, TaskStep.failStep ∉ t) →
      (runGatherAux n ts).2.1 = [] ∧ (runGatherAux n ts).2.2 = false := by
  induction n with
  | zero => intro ts h _; omega
  | succ n ih =>
    intro ts hlen hnf
    have hflag := schedRound_noFail_flag ts hnf
    simp only [runGatherAux]
    rw [if_neg (by simp [hflag])]
    cases hr2 : (schedRound ts).2.1 with
    | nil => exact ⟨rfl, rfl⟩
    | cons p ps =>
      rcases schedRound_lt_or_nil ts with hnil | hlt
      · rw [hr2] at hnil
        exact absurd hnil (by simp)
      · have hnf' := schedRound_noFail_pending ts hnf
        have hq := ih (p :: ps) (by rw [← hr2]; omega) (fun t' ht' => hnf' t' (hr2 ▸ ht'))
        exact ⟨hq.1, hq.2⟩

/-- C9 counterexample: a failing handler and a slower sibling registered for the
same event type. The dispatch call raises after the acknowledgement and the
sibling's first effect; the sibling's second effect runs only in the background,
after the call has already raised — the dispatcher does not wait for all handlers to
finish before returning, although the sibling does still run to completion. -/
theorem C9_counterexample :
    handle_event_request
        [("team_join", [fun _ => [TaskStep.failStep], fun _ => [.eff 5, .eff 6]])]
        "events_api" "team_join" 0
      = { trace := [.ack, .eff 5], raised := true, background := [6] }
    ∧ ProcessEv.eff 6 ∉
        (handle_event_request
            [("team_join", [fun _ => [TaskStep.failStep], fun _ => [.eff 5, .eff 6]])]
            "events_api" "team_join" 0).trace :=
  ⟨by decide, by decide⟩

/-- C9 (corrected): a generic process event whose type is in the process registry is
acknowledged first, and every handler registered for that type is invoked
concurrently with the raw event payload. When no handler raises, the dispatch call
waits for all of them to finish before it returns: nothing runs in the background
and its trace contains every handler effect. When a handler raises, the first
exception escapes the dispatch call — it returns exceptionally without waiting for
slower siblings — but the siblings are not cancelled: every effect any handler
performs before completing or raising still occurs, inside the dispatch trace or in
the background after the call has raised. -/
theorem C9_gather_error_path (process_registry : List (String × List (Nat → List TaskStep)))
    (event_type : String) (event : Nat) (handlers : List (Nat → List TaskStep))
    (hreg : process_registry.lookup event_type = some handlers) :
    handle_event_request process_registry "events_api" event_type event
      = { trace := .ack :: (dispatch_event_handlers event handlers).beforeReturn.map .eff,
          raised := (dispatch_event_handlers event handlers).raised,
          background := (dispatch_event_handlers event handlers).background }
    ∧ ((∀ f ∈ handlers, TaskStep.failStep ∉ f event) →
        (dispatch_event_handlers event handlers).raised = false
        ∧ (dispatch_event_handlers event handlers).background = []
        ∧ ∀ f ∈ handlers, ∀ l ∈ effectsBeforeFail (f event),
            l ∈ (dispatch_event_handlers event handlers).beforeReturn)
    ∧ ∀ f ∈ handlers, ∀ l ∈ effectsBeforeFail (f event),
        l ∈ (dispatch_event_handlers event handlers).beforeReturn
        ∨ l ∈ (dispatch_event_handlers event handlers).background := by
  have htasks : ∀ f ∈ handlers, f event ∈ handlers.map (fun f => f event) :=
    fun f hf => List.mem_map_of_mem _ hf
  refine ⟨?_, ?_, ?_⟩
  · simp [handle_event_request, hreg]
  · intro hnf
    have hnf' : ∀ t ∈ handlers.map (fun f => f event), TaskStep.failStep ∉ t := by
      intro t ht
      rcases List.mem_map.mp ht with ⟨f, hf, hfe⟩
      rw [← hfe]
      exact hnf f hf
    have hq := runGatherAux_noFail (totalLen (handlers.map (fun f => f event)) + 1)
      (handlers.map (fun f => f event)) (Nat.lt_succ_self _) hnf'
    refine ⟨?_, ?_, ?_⟩
    · exact hq.2
    · show runTasksAux
        (totalLen (runGatherAux (totalLen (handlers.map (fun f => f event)) + 1)
            (handlers.map (fun f => f event))).2.1 + 1)
        (runGatherAux (totalLen (handlers.map (fun f => f event)) + 1)
            (handlers.map (fun f => f event))).2.1 = []
      rw [hq.1]
      rfl
    · intro f hf l hl
      rcases runGatherAux_mem (totalLen (handlers.map (fun f => f event)) + 1)
          (handlers.map (fun f => f event)) (Nat.lt_succ_self _) (f event)
          (htasks f hf) l hl with hin | ⟨t', ht', _⟩
      · exact hin
      · rw [hq.1] at ht'
        exact absurd ht' (by simp)
  · intro f hf l hl
    rcases runGatherAux_mem (totalLen (handlers.map (fun f => f event)) + 1)
        (handlers.map (fun f => f event)) (Nat.lt_succ_self _) (f event)
        (htasks f hf) l hl with hin | ⟨t', ht', hl'⟩
    · exact Or.inl hin
    · refine Or.inr ?_
      exact runTasksAux_mem
        (totalLen (runGatherAux (totalLen (handlers.map (fun f => f event)) + 1)
            (handlers.map (fun f => f event))).2.1 + 1)
        (runGatherAux (totalLen (handlers.map (fun f => f event)) + 1)
            (handlers.map (fun f => f event))).2.1
        (Nat.lt_succ_self _) t' ht' l hl'

/-- C9 witness for the corrected claim: three handlers, one of which fails,
registered for `team_join` and dispatched with payload 3. -/
theorem C9_gather_witness :
    handle_event_request
        [("team_join", [fun n => [TaskStep.eff n], fun _ => [.failStep],
          fun _ => [.eff 5, .eff 6]])]
        "events_api" "team_join" 3
      = { trace := .ack :: (dispatch_event_handlers 3
            [fun n => [TaskStep.eff n], fun _ => [.failStep],
             fun _ => [.eff 5, .eff 6]]).beforeReturn.map .eff,
          raised := (dispatch_event_handlers 3
            [fun n => [TaskStep.eff n], fun _ => [.failStep],
             fun _ => [.eff 5, .eff 6]]).raised,
          background := (dispatch_event_handlers 3
            [fun n => [TaskStep.eff n], fun _ => [.failStep],
             fun _ => [.eff 5, .eff 6]]).background }
    ∧ ((∀ f ∈ [fun n => [TaskStep.eff n], fun _ => [.failStep],
          fun _ => [.eff 5, .eff 6]], TaskStep.failStep ∉ f 3) →
        (dispatch_event_handlers 3
          [fun n => [TaskStep.eff n], fun _ => [.failStep],
           fun _ => [.eff 5, .eff 6]]).raised = false
        ∧ (dispatch_event_handlers 3
            [fun n => [TaskStep.eff n], fun _ => [.failStep],
             fun _ => [.eff 5, .eff 6]]).background = []
        ∧ ∀ f ∈ [fun n => [TaskStep.eff n], fun _ => [.failStep],
            fun _ => [.eff 5, .eff 6]], ∀ l ∈ effectsBeforeFail (f 3),
            l ∈ (dispatch_event_handlers 3
              [fun n => [TaskStep.eff n], fun _ => [.failStep],
               fun _ => [.eff 5, .eff 6]]).beforeReturn)
    ∧ ∀ f ∈ [fun n => [TaskStep.eff n], fun _ => [.failStep],
        fun _ => [.eff 5, .eff 6]], ∀ l ∈ effectsBeforeFail (f 3),
        l ∈ (dispatch_event_handlers 3
          [fun n => [TaskStep.eff n], fun _ => [.failStep],
           fun _ => [.eff 5, .eff 6]]).beforeReturn
        ∨ l ∈ (dispatch_event_handlers 3
            [fun n => [TaskStep.eff n], fun _ => [.failStep],
             fun _ => [.eff 5, .eff 6]]).background :=
  C9_gather_error_path
    [("team_join", [fun n => [TaskStep.eff n], fun _ => [.failStep],
      fun _ => [.eff 5, .eff 6]])]
    "team_join" 3
    [fun n => [TaskStep.eff n], fun _ => [.failStep], fun _ => [.eff 5, .eff 6]] rfl

end SlackMachine
